import Mathlib

/-!
# Verification of the `pair_fetcher` extraction pipelines

Shallow embedding of the two extraction pipelines of the repository:

* `src/get_tournaments.py` — `get_current_tournaments` and
  `create_tournament_dict`: locate the "Current" tournaments section of a
  schedule page (with a two-step fallback chain of queries), filter the
  candidate anchors, and emit `TournamentRecord`s keyed `tournament_<i>`.
* `src/main.py` — `get_all_espn_tennis_tabs_links` and
  `create_player_pairs`: locate a container, collect tab links, and pair the
  extracted names two at a time into `match_<n>` records.

DOM queries (xpath lookups, parent walks) are modelled as fields of page /
anchor structures holding the query's result; all control flow, string
matching, filtering, enumeration, key generation and record construction is
translated directly from the Python source.  Python's truthiness of strings
(`if href:` is false for both `None` and `""`) is modelled explicitly.
-/

/-- Does the first list occur as an initial segment of the second?
Used to model Python's substring scanning. -/
def startsWithL : List Char → List Char → Bool
  | [], _ => true
  | _ :: _, [] => false
  | a :: as, b :: bs => a == b && startsWithL as bs

/-- Does `needle` occur as a contiguous sublist of the second argument?
Scans position by position, as `x in s` does for Python strings. -/
def containsSubL (needle : List Char) : List Char → Bool
  | [] => startsWithL needle []
  | c :: cs => startsWithL needle (c :: cs) || containsSubL needle cs

/-- Python's `needle in hay` on strings. -/
def containsSub (hay needle : String) : Bool :=
  containsSubL needle.toList hay.toList

/-- Python's truthiness test `if href:` on an optional string:
false for `None` and for the empty string. -/
def truthy : Option String → Bool
  | none => false
  | some s => if s = "" then false else true

/-- Python's `s.strip()`: drop leading and trailing whitespace. -/
def pyStrip (s : String) : String :=
  String.mk
    (((s.toList.dropWhile Char.isWhitespace).reverse.dropWhile
      Char.isWhitespace).reverse)

/-- Python's `h.endswith("/")`. -/
def endsWithSlash (s : String) : Bool :=
  match s.toList.getLast? with
  | some c => c == '/'
  | none => false

/-- One candidate anchor element of the schedule page
(`src/get_tournaments.py`).  `text` is the raw `text_content()`, `href` the
optional `href` attribute, and `dateCell` the stripped text of the first
date-classed cell of the nearest enclosing `tr` ancestor when that DOM walk
succeeds (lines 76-86 of the source). -/
structure Anchor where
  text : String
  href : Option String
  dateCell : Option String
deriving DecidableEq, Repr

/-- The emitted tournament record (`src/get_tournaments.py` lines 117-123). -/
structure TournamentRecord where
  name : String
  dates : String
  tournament_id : Option String
  original_url : Option String
  scoreboard_url : Option String
deriving DecidableEq, Repr

/-- The two skip filters of the extraction loop
(`src/get_tournaments.py` lines 68-74): skip when the href is truthy and
contains `/player/`, and skip when the href is truthy and contains neither
`/tournament/` nor `/eventId/`.  `true` means the candidate is kept. -/
def keepAnchor (a : Anchor) : Bool :=
  if truthy a.href && containsSub (a.href.getD "") "/player/" then false
  else if truthy a.href &&
      !(containsSub (a.href.getD "") "/tournament/" ||
        containsSub (a.href.getD "") "/eventId/") then false
  else true

/-- `re.search(r'eventId/([^/]+)', href)` (source line 92): scan for the
leftmost occurrence of `eventId/` followed by at least one non-`/`
character; capture the maximal run of non-`/` characters after it.  When the
character right after `eventId/` is `/` (or the string ends), that position
does not match and the scan continues. -/
def eventIdScan : List Char → Option String
  | [] => none
  | c :: cs =>
    if startsWithL ("eventId/".toList) (c :: cs) then
      let cap := (cs.drop 7).takeWhile (fun x => !(x == '/'))
      if cap.isEmpty then eventIdScan cs else some (String.mk cap)
    else eventIdScan cs

/-- Tournament-id extraction (source lines 89-94): only attempted when the
href is truthy. -/
def extractId (a : Anchor) : Option String :=
  if truthy a.href then eventIdScan (a.href.getD "").toList else none

/-- The canonical scoreboard address template (source line 102). -/
def scoreboardTemplate (id today : String) : String :=
  "https://www.espn.com/tennis/scoreboard/tournament/_/eventId/" ++ id ++
    "/competitionType/1/date/" ++ today

/-- Scoreboard URL derivation (source lines 100-115): from the extracted id
and today's date when an id exists; otherwise from a truthy `/tournament/`
href by appending a date segment unless one is present; otherwise `None`. -/
def mkScoreboard (today : String) (href : Option String) (tid : Option String) :
    Option String :=
  match tid with
  | some id => some (scoreboardTemplate id today)
  | none =>
    if truthy href && containsSub (href.getD "") "/tournament/" then
      let h := href.getD ""
      if !(containsSub h "/date/") then
        if endsWithSlash h then some (h ++ "date/" ++ today)
        else some (h ++ "/date/" ++ today)
      else some h
    else none

/-- Date text of the candidate (source lines 82-86). -/
def dateInfo (a : Anchor) : String :=
  match a.dateCell with
  | some d => pyStrip d
  | none => "Unknown Date"

/-- The record built for one kept candidate (source lines 117-123). -/
def mkRecord (today : String) (a : Anchor) : TournamentRecord :=
  { name := pyStrip a.text
    dates := dateInfo a
    tournament_id := extractId a
    original_url := a.href
    scoreboard_url := mkScoreboard today a.href (extractId a) }

/-- The extraction loop `for i, link in enumerate(tournament_links, 1)`
(source lines 64-123): `i` counts every candidate, kept or skipped, and the
emitted key is `tournament_<i>`. -/
def extractFrom (today : String) : Nat → List Anchor → List (String × TournamentRecord)
  | _, [] => []
  | i, a :: rest =>
    if keepAnchor a then
      ("tournament_" ++ toString i, mkRecord today a) :: extractFrom today (i + 1) rest
    else extractFrom today (i + 1) rest

/-- The Record Extractor of the tournament pipeline: the loop started with
enumeration index 1. -/
def recordExtractor (today : String) (links : List Anchor) :
    List (String × TournamentRecord) :=
  extractFrom today 1 links

/-- One `Table__Title` header of the schedule page (source line 39).
`textContent` is the header's `text_content()`; `sectionLinks` is the result
of the query `.//tbody//a[contains(@href, "/tennis/")]` run on the header's
grandparent (source lines 44 and 57). -/
structure SectionHeader where
  textContent : String
  sectionLinks : List Anchor
deriving DecidableEq, Repr

/-- The parsed schedule page.  `fallbackSpecific` holds the result of the
hardcoded positional xpath of source line 50, `fallbackGeneral` the result
of the `Table__TBODY` query of source line 54. -/
structure SchedulePage where
  sectionHeaders : List SectionHeader
  fallbackSpecific : List Anchor
  fallbackGeneral : List Anchor
deriving DecidableEq, Repr

/-- The primary locator (source lines 41-45): the first header whose text
contains "Current". -/
def findCurrentSection (hs : List SectionHeader) : Option SectionHeader :=
  hs.find? (fun h => containsSub h.textContent "Current")

/-- The locator logic of `get_current_tournaments` (source lines 36-57):
if the primary locator finds the Current section, its links are used and no
fallback runs; otherwise the positional xpath is tried, and if it is empty
the general `Table__TBODY` query. -/
def locateTournamentLinks (p : SchedulePage) : List Anchor :=
  match findCurrentSection p.sectionHeaders with
  | some s => s.sectionLinks
  | none =>
    if p.fallbackSpecific.isEmpty then p.fallbackGeneral else p.fallbackSpecific

/-- `get_current_tournaments` (source lines 7-132).  Transport and
processing failures (the `except` handlers, lines 127-132) return the empty
mapping, as does an empty locator result (lines 59-61); otherwise the
extraction loop runs on the located links.  `today` is
`datetime.now().strftime("%Y%m%d")`, a parameter of the model. -/
def get_current_tournaments (today : String) (fetched : Except String SchedulePage) :
    List (String × TournamentRecord) :=
  match fetched with
  | .error _ => []
  | .ok p =>
    let links := locateTournamentLinks p
    if links.isEmpty then [] else extractFrom today 1 links

/-- The result of `create_tournament_dict`: either the error mapping or the
mapping with `tournament_count`, `fetch_date` and `tournaments` keys. -/
inductive TournamentDict where
  | err (msg : String)
  | ok (tournament_count : Nat) (fetch_date : String)
      (tournaments : List (String × TournamentRecord))
deriving DecidableEq, Repr

/-- `create_tournament_dict` (source lines 134-155).  `fetchDate` is
`datetime.now().strftime("%Y-%m-%d")`. -/
def create_tournament_dict (today fetchDate : String)
    (fetched : Except String SchedulePage) : TournamentDict :=
  let tournaments := get_current_tournaments today fetched
  if tournaments.isEmpty then .err "No tournaments found"
  else .ok tournaments.length fetchDate tournaments

/-- One `match_<n>` record of the pairing formatter (`src/main.py`). -/
structure MatchRecord where
  player1 : String
  player2 : String
deriving DecidableEq, Repr

/-- A value of the dictionary returned by `create_player_pairs`: either one
of the two tournament-info strings or a match record. -/
inductive PairVal where
  | strVal (s : String)
  | matchVal (m : MatchRecord)
deriving DecidableEq, Repr

/-- The pairing loop of `create_player_pairs` (`src/main.py` lines 164-177):
take the names two at a time; an unpaired trailing name gets the sentinel
`"N/A"` as its opponent.  `k` is the next match number. -/
def buildPairs : Nat → List String → List (String × MatchRecord)
  | _, [] => []
  | k, [p] => [("match_" ++ toString k, ⟨p, "N/A"⟩)]
  | k, p :: q :: rest =>
    ("match_" ++ toString k, ⟨p, q⟩) :: buildPairs (k + 1) rest

/-- `create_player_pairs` (`src/main.py` lines 141-179): the result
dictionary holds the two tournament-info keys followed by the `match_<n>`
records, match numbers starting at 1. -/
def create_player_pairs (player_names : List String)
    (tournament_name tournament_date : String) : List (String × PairVal) :=
  ("Tournament Name", .strVal tournament_name) ::
  ("Tournament Day", .strVal tournament_date) ::
  (buildPairs 1 player_names).map (fun p => (p.1, .matchVal p.2))

/-- The match records of a `create_player_pairs` result, in order. -/
def matchEntries (r : List (String × PairVal)) : List (String × MatchRecord) :=
  r.filterMap (fun p =>
    match p.2 with
    | .strVal _ => none
    | .matchVal m => some (p.1, m))

/-- One anchor of the scoreboard page (`src/main.py`).  `treePath` models
`tree.getpath(link)`, used only by the unrestricted fallback search. -/
structure TabLink where
  text : String
  href : Option String
  treePath : String
deriving DecidableEq, Repr

/-- One immediate child div of the main container (`src/main.py` line 71).
`primaryLinks` is the result of `./div/ul/li/a`, `altLinks` of `./ul/li/a`;
`primaryResolves li` models whether the reconstructed primary-form xpath for
item `li` resolves against the tree (line 92). -/
structure TabDiv where
  primaryLinks : List TabLink
  altLinks : List TabLink
  primaryResolves : Nat → Bool

/-- The parsed scoreboard page (`src/main.py`).  `tournamentHeading` is the
first element of the specific h1 xpath (line 36), `scoreboardHeaderName` of
the `ScoreboardHeader__Name` fallback query (line 43); `containerFound`
models whether the container xpath of line 59 matched; `containerAnchors`
is the result of `//a` under the container (line 106). -/
structure ScoreboardPage where
  tournamentHeading : Option String
  scoreboardHeaderName : Option String
  containerFound : Bool
  tabsDivs : List TabDiv
  containerAnchors : List TabLink

/-- Tournament-name extraction with its class-based fallback
(`src/main.py` lines 36-44). -/
def tournName (p : ScoreboardPage) : String :=
  match p.tournamentHeading with
  | some t => pyStrip t
  | none =>
    match p.scoreboardHeaderName with
    | some t => pyStrip t
    | none => "Unknown Tournament"

/-- `re.search(r'date/(\d{8})', url)` (`src/main.py` line 47): scan for the
leftmost `date/` followed by 8 digits; capture the digits. -/
def findDate8 : List Char → Option (List Char)
  | [] => none
  | c :: cs =>
    if startsWithL ("date/".toList) (c :: cs) then
      let d8 := (cs.drop 4).take 8
      if d8.length == 8 && d8.all Char.isDigit then some d8 else findDate8 cs
    else findDate8 cs

/-- Date extraction from the source address (`src/main.py` lines 46-56):
reformat `YYYYMMDD` as `YYYY-MM-DD`, or `"Unknown Date"` when absent. -/
def dateFromUrl (url : String) : String :=
  match findDate8 url.toList with
  | some d8 =>
    String.mk (d8.take 4) ++ "-" ++ String.mk ((d8.drop 4).take 2) ++ "-" ++
      String.mk (d8.drop 6)
  | none => "Unknown Date"

/-- The main-container xpath of `src/main.py` line 59. -/
def containerXPath : String :=
  "//*[@id=\"fittPageContainer\"]/div[2]/div[2]/div/div/div[1]/div/div/section/div/div[2]"

/-- One collected link entry (`src/main.py` lines 94-100 and 115-120).
`sectionIdx` is `none` for entries of the unrestricted fallback search,
which records no section. -/
structure LinkEntry where
  sectionIdx : Option Nat
  itemIdx : Nat
  text : String
  href : Option String
  xpath : String
deriving DecidableEq, Repr

/-- The reconstructed primary-form xpath of `src/main.py` line 88. -/
def primaryXP (di li : Nat) : String :=
  containerXPath ++ "/div[" ++ toString di ++ "]/div/ul/li[" ++ toString li ++ "]/a"

/-- The reconstructed alternative-form xpath of `src/main.py` line 89. -/
def altXP (di li : Nat) : String :=
  containerXPath ++ "/div[" ++ toString di ++ "]/ul/li[" ++ toString li ++ "]/a"

/-- The inner loop over one tab div's link elements (`src/main.py`
lines 83-100), `li` counting from 1. -/
def tabEntries (di : Nat) (d : TabDiv) : Nat → List TabLink → List LinkEntry
  | _, [] => []
  | li, l :: ls =>
    { sectionIdx := some di, itemIdx := li, text := pyStrip l.text, href := l.href,
      xpath := if d.primaryResolves li then primaryXP di li else altXP di li } ::
      tabEntries di d (li + 1) ls

/-- The outer loop over the container's child divs (`src/main.py`
lines 75-100), `di` counting from 1; each div's links come from
`./div/ul/li/a` with `./ul/li/a` as fallback (lines 77-81). -/
def tabsEntries : Nat → List TabDiv → List LinkEntry
  | _, [] => []
  | di, d :: ds =>
    tabEntries di d 1 (if d.primaryLinks.isEmpty then d.altLinks else d.primaryLinks) ++
      tabsEntries (di + 1) ds

/-- The first link-search approach (`src/main.py` lines 70-100). -/
def firstApproachLinks (divs : List TabDiv) : List LinkEntry :=
  tabsEntries 1 divs

/-- The unrestricted fallback search (`src/main.py` lines 103-120): every
anchor under the container whose stripped text is non-empty and shorter
than 100 characters; `i` is the 0-based enumeration index over all anchors,
recorded as `i + 1` even across filtered-out anchors. -/
def enumEntries : Nat → List TabLink → List LinkEntry
  | _, [] => []
  | i, l :: ls =>
    let t := pyStrip l.text
    if t ≠ "" ∧ t.length < 100 then
      { sectionIdx := none, itemIdx := i + 1, text := t, href := l.href,
        xpath := l.treePath } :: enumEntries (i + 1) ls
    else enumEntries (i + 1) ls

/-- The fallback entry list started at enumeration index 0. -/
def fallbackEntries (anchors : List TabLink) : List LinkEntry :=
  enumEntries 0 anchors

/-- The result of `get_all_espn_tennis_tabs_links`: either an error mapping
(one `error` key, no `matches` key) or the full result mapping. -/
inductive TabsResult where
  | err (msg : String)
  | ok (tournament : String) (tournament_date : String) (links_count : Nat)
      (links : List LinkEntry) (matchPairs : List (String × PairVal))

/-- `get_all_espn_tennis_tabs_links` (`src/main.py` lines 6-139).  Transport
failure returns the `Request error` mapping (line 136); a missing main
container returns the `Main container not found` mapping before any link
extraction or pairing (lines 62-64); otherwise the first search approach
runs, with the unrestricted fallback when it finds nothing, and the
collected texts are paired. -/
def get_all_espn_tennis_tabs_links (url : String)
    (fetched : Except String ScoreboardPage) : TabsResult :=
  match fetched with
  | .error e => .err ("Request error: " ++ e)
  | .ok p =>
    let tname := tournName p
    let dstr := dateFromUrl url
    if p.containerFound = false then .err "Main container not found"
    else
      let l1 := firstApproachLinks p.tabsDivs
      let all_links := if l1.isEmpty then fallbackEntries p.containerAnchors else l1
      let player_names := all_links.map (fun l => l.text)
      .ok tname dstr all_links.length all_links
        (create_player_pairs player_names tname dstr)

/-! ### Concrete inputs used to exercise the theorems -/

/-- A candidate anchor whose href is a player profile link. -/
def playerAnchor : Anchor :=
  { text := "R. Nadal"
    href := some "https://www.espn.com/tennis/player/_/id/104"
    dateCell := none }

/-- A candidate anchor whose href carries an `eventId/713-2025` segment and
a date segment `20250321` different from the modelled current date. -/
def openAnchor : Anchor :=
  { text := " Miami Open "
    href := some
      "https://www.espn.com/tennis/scoreboard/tournament/_/eventId/713-2025/competitionType/1/date/20250321"
    dateCell := some "Mar 16 - Mar 29" }

/-- A candidate anchor with no href attribute. -/
def noHrefAnchor : Anchor :=
  { text := "Davis Cup", href := none, dateCell := none }

/-- A schedule page whose primary locator finds the Current section. -/
def schedPage : SchedulePage :=
  { sectionHeaders := [{ textContent := "Current Tournaments", sectionLinks := [openAnchor] }]
    fallbackSpecific := []
    fallbackGeneral := [playerAnchor] }

/-- A schedule page with no Current header and an empty positional
fallback, so the general fallback query must win. -/
def fbPage : SchedulePage :=
  { sectionHeaders := [{ textContent := "Completed Tournaments", sectionLinks := [] }]
    fallbackSpecific := []
    fallbackGeneral := [openAnchor] }

/-- A scoreboard page whose main container is absent. -/
def noContainerPage : ScoreboardPage :=
  { tournamentHeading := some "Miami Open"
    scoreboardHeaderName := none
    containerFound := false
    tabsDivs := []
    containerAnchors := [] }

/-! ### Lemmas about the pairing formatter -/

theorem buildPairs_length (k : Nat) (l : List String) :
    (buildPairs k l).length = (l.length + 1) / 2 := by
  induction k, l using buildPairs.induct with
  | case1 k => simp [buildPairs]
  | case2 k p => simp [buildPairs]
  | case3 k p q rest ih =>
    simp only [buildPairs, List.length_cons, ih]
    omega

theorem buildPairs_getElem_pair (k : Nat) (l : List String) :
    ∀ j, 2 * j + 1 < l.length →
      (buildPairs k l)[j]? =
        some ("match_" ++ toString (k + j),
          ⟨l.getD (2 * j) "", l.getD (2 * j + 1) ""⟩) := by
  induction k, l using buildPairs.induct with
  | case1 k =>
    intro j hj
    simp at hj
  | case2 k p =>
    intro j hj
    simp at hj
  | case3 k p q rest ih =>
    intro j hj
    cases j with
    | zero => simp [buildPairs]
    | succ j =>
      have hj' : 2 * j + 1 < rest.length := by
        simp only [List.length_cons] at hj
        omega
      have e1 : 2 * (j + 1) = 2 * j + 1 + 1 := by omega
      have e2 : 2 * (j + 1) + 1 = 2 * j + 1 + 1 + 1 := by omega
      have e3 : k + (j + 1) = k + 1 + j := by omega
      rw [e2, e1, e3]
      simpa [buildPairs] using ih j hj'

theorem buildPairs_getElem_last_odd (k : Nat) (l : List String) :
    ∀ j, 2 * j + 1 = l.length →
      (buildPairs k l)[j]? =
        some ("match_" ++ toString (k + j), ⟨l.getD (2 * j) "", "N/A"⟩) := by
  induction k, l using buildPairs.induct with
  | case1 k =>
    intro j hj
    simp at hj
  | case2 k p =>
    intro j hj
    simp only [List.length_cons, List.length_nil] at hj
    have : j = 0 := by omega
    subst this
    simp [buildPairs]
  | case3 k p q rest ih =>
    intro j hj
    cases j with
    | zero =>
      simp only [List.length_cons] at hj
      omega
    | succ j =>
      have hj' : 2 * j + 1 = rest.length := by
        simp only [List.length_cons] at hj
        omega
      have e1 : 2 * (j + 1) = 2 * j + 1 + 1 := by omega
      have e3 : k + (j + 1) = k + 1 + j := by omega
      rw [e1, e3]
      simpa [buildPairs] using ih j hj'

theorem matchEntries_create_player_pairs (names : List String) (tn td : String) :
    matchEntries (create_player_pairs names tn td) = buildPairs 1 names := by
  simp only [matchEntries, create_player_pairs, List.filterMap_cons]
  induction buildPairs 1 names with
  | nil => rfl
  | cons p t ih => simpa [List.filterMap_cons] using ih

/-! ### Lemmas about the tournament record extractor -/

/-- Every emitted record comes from a kept candidate of the input list. -/
theorem mem_extractFrom (today : String) :
    ∀ (n : Nat) (links : List Anchor) (k : String) (r : TournamentRecord),
      (k, r) ∈ extractFrom today n links →
      ∃ a, a ∈ links ∧ keepAnchor a = true ∧ r = mkRecord today a := by
  intro n links
  induction links generalizing n with
  | nil =>
    intro k r h
    simp [extractFrom] at h
  | cons a rest ih =>
    intro k r h
    by_cases hk : keepAnchor a
    · rw [show extractFrom today n (a :: rest) =
          ("tournament_" ++ toString n, mkRecord today a) ::
            extractFrom today (n + 1) rest by simp [extractFrom, hk]] at h
      rcases List.mem_cons.mp h with h1 | h2
      · exact ⟨a, List.mem_cons_self a rest, hk, congrArg Prod.snd h1⟩
      · obtain ⟨b, hb, hkb, hr⟩ := ih (n + 1) k r h2
        exact ⟨b, List.mem_cons_of_mem _ hb, hkb, hr⟩
    · rw [show extractFrom today n (a :: rest) = extractFrom today (n + 1) rest by
          simp [extractFrom, hk]] at h
      obtain ⟨b, hb, hkb, hr⟩ := ih (n + 1) k r h
      exact ⟨b, List.mem_cons_of_mem _ hb, hkb, hr⟩

/-- Every kept candidate of the input list is emitted as a record. -/
theorem extractFrom_mem (today : String) (a : Anchor) :
    ∀ (n : Nat) (links : List Anchor), a ∈ links → keepAnchor a = true →
      ∃ k, (k, mkRecord today a) ∈ extractFrom today n links := by
  intro n links
  induction links generalizing n with
  | nil =>
    intro h _
    simp at h
  | cons b rest ih =>
    intro hmem hk
    rcases List.mem_cons.mp hmem with h1 | h2
    · subst h1
      refine ⟨"tournament_" ++ toString n, ?_⟩
      rw [show extractFrom today n (a :: rest) =
          ("tournament_" ++ toString n, mkRecord today a) ::
            extractFrom today (n + 1) rest by simp [extractFrom, hk]]
      exact List.mem_cons_self _ _
    · obtain ⟨k, hkmem⟩ := ih (n + 1) h2 hk
      by_cases hb : keepAnchor b
      · refine ⟨k, ?_⟩
        rw [show extractFrom today n (b :: rest) =
            ("tournament_" ++ toString n, mkRecord today b) ::
              extractFrom today (n + 1) rest by simp [extractFrom, hb]]
        exact List.mem_cons_of_mem _ hkmem
      · refine ⟨k, ?_⟩
        rw [show extractFrom today n (b :: rest) = extractFrom today (n + 1) rest by
            simp [extractFrom, hb]]
        exact hkmem

/-- The key sequence `tournament_<n>, tournament_<n+1>, ...` of length `m`. -/
def seqKeys : Nat → Nat → List String
  | _, 0 => []
  | n, m + 1 => ("tournament_" ++ toString n) :: seqKeys (n + 1) m

/-- The extractor emits one record per kept candidate. -/
theorem extractFrom_length (today : String) :
    ∀ (n : Nat) (links : List Anchor),
      (extractFrom today n links).length = (links.filter keepAnchor).length := by
  intro n links
  induction links generalizing n with
  | nil => rfl
  | cons a rest ih =>
    by_cases ha : keepAnchor a
    · simp [extractFrom, ha, List.filter_cons, ih (n + 1)]
    · simp [extractFrom, ha, List.filter_cons, ih (n + 1)]

/-- The extraction loop equals the pipeline "enumerate all candidates from
the initial index, keep the surviving ones, key each by its enumeration
position": positional keying over all candidates, kept or skipped. -/
theorem extractFrom_eq_enumFrom (today : String) :
    ∀ (n : Nat) (links : List Anchor),
      extractFrom today n links =
        ((List.enumFrom n links).filter (fun p => keepAnchor p.2)).map
          (fun p => ("tournament_" ++ toString p.1, mkRecord today p.2)) := by
  intro n links
  induction links generalizing n with
  | nil => rfl
  | cons a rest ih =>
    by_cases ha : keepAnchor a
    · simp [extractFrom, ha, List.enumFrom, List.filter_cons, ih (n + 1)]
    · simp [extractFrom, ha, List.enumFrom, List.filter_cons, ih (n + 1)]

/-- When no candidate is skipped, the keys are the consecutive sequence
starting at the initial enumeration index. -/
theorem extractFrom_keys_all_kept (today : String) :
    ∀ (n : Nat) (links : List Anchor), (∀ a ∈ links, keepAnchor a = true) →
      (extractFrom today n links).map Prod.fst = seqKeys n links.length := by
  intro n links
  induction links generalizing n with
  | nil => intro _; rfl
  | cons a rest ih =>
    intro h
    have ha : keepAnchor a = true := h a (List.mem_cons_self a rest)
    simp only [extractFrom, ha, if_true, List.map_cons, List.length_cons, seqKeys]
    exact congrArg _ (ih (n + 1) fun b hb => h b (List.mem_cons_of_mem _ hb))

/-! ### Claim theorems -/

/-- C2: for every input name sequence of odd length `2k+1`,
`create_player_pairs` produces exactly `k+1` match records and the last
record's `player2` field is the sentinel `"N/A"`; in particular, on input
`["A", "B", "C"]` the match records are exactly
`match_1 = (A, B)` and `match_2 = (C, N/A)`. -/
theorem c2_odd_length_sentinel (names : List String) (tn td : String) (k : Nat)
    (h : names.length = 2 * k + 1) :
    (matchEntries (create_player_pairs names tn td)).length = k + 1 ∧
    (∃ key p, (matchEntries (create_player_pairs names tn td)).getLast? =
      some (key, ⟨p, "N/A"⟩)) ∧
    matchEntries (create_player_pairs ["A", "B", "C"] tn td) =
      [("match_1", ⟨"A", "B"⟩), ("match_2", ⟨"C", "N/A"⟩)] := by
  rw [matchEntries_create_player_pairs names tn td,
    matchEntries_create_player_pairs ["A", "B", "C"] tn td]
  have hlen : (buildPairs 1 names).length = k + 1 := by
    rw [buildPairs_length, h]
    omega
  refine ⟨hlen, ?_, by decide⟩
  have hget := buildPairs_getElem_last_odd 1 names k (by omega)
  refine ⟨"match_" ++ toString (1 + k), names.getD (2 * k) "", ?_⟩
  rw [List.getLast?_eq_getElem?, hlen]
  simpa using hget

/-- Witness for C2 at the concrete odd-length input `["A", "B", "C"]`. -/
theorem c2_witness :
    (matchEntries (create_player_pairs ["A", "B", "C"] "Miami Open" "2025-03-22")).length = 2 ∧
    (∃ key p,
      (matchEntries (create_player_pairs ["A", "B", "C"] "Miami Open" "2025-03-22")).getLast? =
        some (key, ⟨p, "N/A"⟩)) ∧
    matchEntries (create_player_pairs ["A", "B", "C"] "Miami Open" "2025-03-22") =
      [("match_1", ⟨"A", "B"⟩), ("match_2", ⟨"C", "N/A"⟩)] :=
  c2_odd_length_sentinel ["A", "B", "C"] "Miami Open" "2025-03-22" 1 (by decide)

/-- C5: for every input name sequence of even length `2k`,
`create_player_pairs` produces exactly `k` match records, each match record
pairs two consecutive input names (so no `player2` field is ever set to the
sentinel branch), and when `"N/A"` is not itself an input name no record's
`player2` equals `"N/A"`. -/
theorem c5_even_length (names : List String) (tn td : String) (k : Nat)
    (h : names.length = 2 * k) :
    (matchEntries (create_player_pairs names tn td)).length = k ∧
    (∀ j, j < k → (matchEntries (create_player_pairs names tn td))[j]? =
      some ("match_" ++ toString (j + 1),
        ⟨names.getD (2 * j) "", names.getD (2 * j + 1) ""⟩)) ∧
    (("N/A" : String) ∉ names →
      ∀ e ∈ matchEntries (create_player_pairs names tn td), e.2.player2 ≠ "N/A") := by
  rw [matchEntries_create_player_pairs names tn td]
  have hlen : (buildPairs 1 names).length = k := by
    rw [buildPairs_length, h]
    omega
  have hget : ∀ j, j < k → (buildPairs 1 names)[j]? =
      some ("match_" ++ toString (j + 1),
        ⟨names.getD (2 * j) "", names.getD (2 * j + 1) ""⟩) := by
    intro j hj
    have := buildPairs_getElem_pair 1 names j (by omega)
    rwa [show 1 + j = j + 1 by omega] at this
  refine ⟨hlen, hget, ?_⟩
  intro hna e he
  obtain ⟨j, hj⟩ := List.mem_iff_getElem?.mp he
  have hjlt : j < k := by
    obtain ⟨hlt, -⟩ := List.getElem?_eq_some.mp hj
    rwa [hlen] at hlt
  have he2 := hget j hjlt
  rw [hj] at he2
  have he3 : e = ("match_" ++ toString (j + 1),
      ⟨names.getD (2 * j) "", names.getD (2 * j + 1) ""⟩) := Option.some.inj he2
  have hb : 2 * j + 1 < names.length := by omega
  have hmem2 : names.getD (2 * j + 1) "" ∈ names := by
    rw [List.getD_eq_getElem?_getD, List.getElem?_eq_getElem hb]
    exact List.getElem_mem hb
  intro hd
  rw [he3] at hd
  have hd2 : names.getD (2 * j + 1) "" = "N/A" := hd
  exact hna (hd2 ▸ hmem2)

/-- Witness for C5 at the concrete even-length input `["A", "B", "C", "D"]`. -/
theorem c5_witness :
    (matchEntries (create_player_pairs ["A", "B", "C", "D"] "Miami Open" "2025-03-22")).length = 2 ∧
    (matchEntries (create_player_pairs ["A", "B", "C", "D"] "Miami Open" "2025-03-22"))[1]? =
      some ("match_2", ⟨"C", "D"⟩) := by
  have h := c5_even_length ["A", "B", "C", "D"] "Miami Open" "2025-03-22" 2 (by decide)
  exact ⟨h.1, by simpa using h.2.1 1 (by omega)⟩

/-- C10: for every input, the mapping returned by `create_player_pairs`
binds the keys "Tournament Name" and "Tournament Day" to the tournament
name and date arguments, its match records are exactly the pairing of the
input names, and for the empty name list it consists of exactly those two
keys with zero match records. -/
theorem c10_tournament_info_keys (names : List String) (tn td : String) :
    List.lookup "Tournament Name" (create_player_pairs names tn td) =
      some (.strVal tn) ∧
    List.lookup "Tournament Day" (create_player_pairs names tn td) =
      some (.strVal td) ∧
    matchEntries (create_player_pairs names tn td) = buildPairs 1 names ∧
    create_player_pairs [] tn td =
      [("Tournament Name", .strVal tn), ("Tournament Day", .strVal td)] := by
  refine ⟨rfl, rfl, matchEntries_create_player_pairs names tn td, rfl⟩

/-- C1 (counterexample): the claim says the emitted records are keyed
sequentially `tournament_1, tournament_2, ...` with no gaps even when
candidates are skipped.  On a candidate list whose first anchor is a skipped
player link, the single emitted record is keyed `tournament_2`, not
`tournament_1`: the key sequence has a gap. -/
theorem c1_counterexample :
    ¬ ((recordExtractor "20250322" [playerAnchor, openAnchor]).map Prod.fst =
      seqKeys 1 (recordExtractor "20250322" [playerAnchor, openAnchor]).length) := by
  decide

/-- C1 (amended): the extractor's output is, in order, exactly the kept
candidates of the enumeration of all candidates from 1, each keyed
`tournament_<i>` by its candidate's 1-based enumeration position among all
candidates, kept or skipped; hence the keys are the gap-free sequence
`tournament_1, ..., tournament_n` whenever no candidate is skipped, while a
skipped candidate that precedes a kept one leaves a gap. -/
theorem c1_keys_positional (today : String) (links : List Anchor) :
    recordExtractor today links =
      ((List.enumFrom 1 links).filter (fun p => keepAnchor p.2)).map
        (fun p => ("tournament_" ++ toString p.1, mkRecord today p.2)) ∧
    ((∀ a ∈ links, keepAnchor a = true) →
      (recordExtractor today links).map Prod.fst = seqKeys 1 links.length) := by
  exact ⟨extractFrom_eq_enumFrom today 1 links,
    fun h => extractFrom_keys_all_kept today 1 links h⟩

/-- Witness for C1 (amended): the positional-keying characterization at the
concrete candidate list whose first anchor is skipped (its sole record is
keyed by position 2), and the gap-free key sequence at a concrete candidate
list with no skipped candidate. -/
theorem c1_witness :
    recordExtractor "20250322" [playerAnchor, openAnchor] =
      ((List.enumFrom 1 [playerAnchor, openAnchor]).filter
        (fun p => keepAnchor p.2)).map
        (fun p => ("tournament_" ++ toString p.1, mkRecord "20250322" p.2)) ∧
    (recordExtractor "20250322" [openAnchor, noHrefAnchor]).map Prod.fst =
      seqKeys 1 [openAnchor, noHrefAnchor].length := by
  exact ⟨(c1_keys_positional "20250322" [playerAnchor, openAnchor]).1,
    (c1_keys_positional "20250322" [openAnchor, noHrefAnchor]).2 (by decide)⟩

/-- C3: whenever the href of a candidate yields a tournament identifier
`id` through the `eventId/<value>` pattern, the constructed record's
`scoreboard_url` is exactly the canonical scoreboard template populated
with `id` and the current date — whatever date segment the original href
itself carries. -/
theorem c3_scoreboard_from_template (today : String) (a : Anchor) (id : String)
    (hid : extractId a = some id) :
    (mkRecord today a).scoreboard_url = some (scoreboardTemplate id today) := by
  simp [mkRecord, mkScoreboard, hid]

/-- Witness for C3: the spec's example href carries `eventId/713-2025` and
the date segment `20250321`, yet on current date `20250322` the derived
scoreboard URL uses `20250322`. -/
theorem c3_witness :
    (mkRecord "20250322" openAnchor).scoreboard_url =
      some (scoreboardTemplate "713-2025" "20250322") ∧
    scoreboardTemplate "713-2025" "20250322" =
      "https://www.espn.com/tennis/scoreboard/tournament/_/eventId/713-2025/competitionType/1/date/20250322" :=
  ⟨c3_scoreboard_from_template "20250322" openAnchor "713-2025" (by decide),
   by decide⟩

/-- C6: no record of the extractor's output mapping carries an href that
contains the player-path marker `/player/`: every candidate with such an
href is excluded, whatever its other attributes. -/
theorem c6_player_links_excluded (today : String) (links : List Anchor)
    (k : String) (r : TournamentRecord) (h : String)
    (hmem : (k, r) ∈ recordExtractor today links)
    (hurl : r.original_url = some h) :
    containsSub h "/player/" = false := by
  obtain ⟨a, -, hkeep, hr⟩ := mem_extractFrom today 1 links k r hmem
  subst hr
  have hhref : a.href = some h := hurl
  by_cases hemp : h = ""
  · subst hemp
    decide
  · cases hcc : containsSub h "/player/" with
    | false => rfl
    | true =>
      exfalso
      simp [keepAnchor, hhref, truthy, hemp, hcc] at hkeep

/-- Witness for C6: the record emitted for the concrete tournament anchor
has an href free of the player marker. -/
theorem c6_witness :
    containsSub
      "https://www.espn.com/tennis/scoreboard/tournament/_/eventId/713-2025/competitionType/1/date/20250321"
      "/player/" = false := by
  refine c6_player_links_excluded "20250322" [openAnchor] "tournament_1"
    (mkRecord "20250322" openAnchor) _ ?_ (by decide)
  have h : recordExtractor "20250322" [openAnchor] =
      [("tournament_1", mkRecord "20250322" openAnchor)] := by decide
  rw [h]
  exact List.mem_singleton.mpr rfl

/-- C9: a candidate anchor whose href attribute is absent passes both skip
filters, and its emitted record has `tournament_id`, `original_url` and
`scoreboard_url` all `none`; the record is present in the output whenever
the candidate is among the located links. -/
theorem c9_absent_href_emitted (today : String) (a : Anchor)
    (h : a.href = none) :
    keepAnchor a = true ∧
    (mkRecord today a).tournament_id = none ∧
    (mkRecord today a).original_url = none ∧
    (mkRecord today a).scoreboard_url = none ∧
    ∀ links, a ∈ links →
      ∃ k, (k, mkRecord today a) ∈ recordExtractor today links := by
  have ht : truthy a.href = false := by rw [h]; rfl
  have hk : keepAnchor a = true := by simp [keepAnchor, ht]
  refine ⟨hk, ?_, ?_, ?_, ?_⟩
  · simp [mkRecord, extractId, ht]
  · simp [mkRecord, h]
  · simp [mkRecord, mkScoreboard, extractId, ht]
  · intro links hmem
    exact extractFrom_mem today a 1 links hmem hk

/-- Witness for C9 at a concrete anchor with no href. -/
theorem c9_witness :
    keepAnchor noHrefAnchor = true ∧
    (mkRecord "20250322" noHrefAnchor).tournament_id = none ∧
    (mkRecord "20250322" noHrefAnchor).original_url = none ∧
    (mkRecord "20250322" noHrefAnchor).scoreboard_url = none ∧
    ∀ links, noHrefAnchor ∈ links →
      ∃ k, (k, mkRecord "20250322" noHrefAnchor) ∈ recordExtractor "20250322" links :=
  c9_absent_href_emitted "20250322" noHrefAnchor rfl

/-- C4: in the tournament pipeline's locator logic, a primary-locator hit
(the first `Table__Title` header containing "Current") determines the
result outright, so no fallback query's result is used; when the primary
locator finds nothing, the positional fallback wins if non-empty, otherwise
the general fallback's result is returned — which is empty exactly when
every query failed. -/
theorem c4_fallback_ordering (p : SchedulePage) :
    (∀ s, findCurrentSection p.sectionHeaders = some s →
      locateTournamentLinks p = s.sectionLinks) ∧
    (findCurrentSection p.sectionHeaders = none →
      (p.fallbackSpecific ≠ [] → locateTournamentLinks p = p.fallbackSpecific) ∧
      (p.fallbackSpecific = [] → locateTournamentLinks p = p.fallbackGeneral)) := by
  constructor
  · intro s hs
    simp [locateTournamentLinks, hs]
  · intro hn
    constructor
    · intro hne
      simp [locateTournamentLinks, hn, List.isEmpty_iff, hne]
    · intro he
      simp [locateTournamentLinks, hn, List.isEmpty_iff, he]

/-- Witness for C4: on a page whose primary locator hits, the section's
links are used; on a page where it misses and the positional fallback is
empty, the general fallback's links are used. -/
theorem c4_witness :
    locateTournamentLinks schedPage = [openAnchor] ∧
    locateTournamentLinks fbPage = [openAnchor] := by
  constructor
  · exact (c4_fallback_ordering schedPage).1
      { textContent := "Current Tournaments", sectionLinks := [openAnchor] }
      (by decide)
  · exact ((c4_fallback_ordering fbPage).2 (by decide)).2 rfl

/-- C7: when the main-container locator of the tab-links pipeline yields no
match, `get_all_espn_tennis_tabs_links` returns the error-shaped result
`error = "Main container not found"`, which carries no `matches` key: no
link extraction or pairing output is produced. -/
theorem c7_container_missing (url : String) (p : ScoreboardPage)
    (h : p.containerFound = false) :
    get_all_espn_tennis_tabs_links url (.ok p) = .err "Main container not found" ∧
    ∀ t d n l m, get_all_espn_tennis_tabs_links url (.ok p) ≠ .ok t d n l m := by
  have he : get_all_espn_tennis_tabs_links url (.ok p) =
      .err "Main container not found" := by
    simp [get_all_espn_tennis_tabs_links, h]
  refine ⟨he, fun t d n l m hok => ?_⟩
  rw [he] at hok
  exact TabsResult.noConfusion hok

/-- Witness for C7 at a concrete page without the main container. -/
theorem c7_witness :
    get_all_espn_tennis_tabs_links
      "https://www.espn.com/tennis/scoreboard/tournament/_/eventId/713-2025/competitionType/1/date/20250322"
      (.ok noContainerPage) = .err "Main container not found" :=
  (c7_container_missing
    "https://www.espn.com/tennis/scoreboard/tournament/_/eventId/713-2025/competitionType/1/date/20250322"
    noContainerPage rfl).1

/-- C8: `create_tournament_dict` returns the mapping
`error = "No tournaments found"` exactly when the underlying extraction
yields an empty mapping — whether after filtering or after a transport or
processing failure — and otherwise returns the count, fetch date and
tournaments with no error key. -/
theorem c8_error_iff_empty (today fd : String)
    (fetched : Except String SchedulePage) :
    (create_tournament_dict today fd fetched = .err "No tournaments found" ↔
      get_current_tournaments today fetched = []) ∧
    (∀ e, create_tournament_dict today fd fetched = .err e →
      e = "No tournaments found") ∧
    (get_current_tournaments today fetched ≠ [] →
      create_tournament_dict today fd fetched =
        .ok (get_current_tournaments today fetched).length fd
          (get_current_tournaments today fetched)) := by
  by_cases h : get_current_tournaments today fetched = []
  · have hc : create_tournament_dict today fd fetched =
        .err "No tournaments found" := by
      simp [create_tournament_dict, h]
    refine ⟨by simp [hc, h], ?_, fun hne => absurd h hne⟩
    intro e he
    rw [hc] at he
    exact (TournamentDict.err.injEq _ _).mp he.symm
  · have hc : create_tournament_dict today fd fetched =
        .ok (get_current_tournaments today fetched).length fd
          (get_current_tournaments today fetched) := by
      simp [create_tournament_dict, List.isEmpty_iff, h]
    refine ⟨?_, ?_, fun _ => hc⟩
    · constructor
      · intro he
        rw [hc] at he
        exact TournamentDict.noConfusion he
      · intro he
        exact absurd he h
    · intro e he
      rw [hc] at he
      exact TournamentDict.noConfusion he

/-- Witness for C8: a transport failure yields the error mapping; a page
with one surviving candidate yields the count/date/tournaments mapping. -/
theorem c8_witness :
    create_tournament_dict "20250322" "2025-03-22" (.error "timeout") =
      .err "No tournaments found" ∧
    create_tournament_dict "20250322" "2025-03-22" (.ok schedPage) =
      .ok (get_current_tournaments "20250322" (.ok schedPage)).length "2025-03-22"
        (get_current_tournaments "20250322" (.ok schedPage)) :=
  ⟨(c8_error_iff_empty "20250322" "2025-03-22" (.error "timeout")).1.mpr rfl,
   (c8_error_iff_empty "20250322" "2025-03-22" (.ok schedPage)).2.2 (by decide)⟩
